import Mathlib

/-!
# Verification of the Study Assistant task-lifecycle store

Shallow embedding of `src/main.py` (a FastAPI + SQLite task tracker).
Timestamps are modelled as integers counting an arbitrary unit since an
epoch; a Python `datetime` is a wall-clock reading together with an
optional timezone offset (`none` = naive).  SQLite's default `LIKE`
operator (ASCII-case-insensitive, `%`/`_` wildcards) is modelled
explicitly, since `fetch_tasks` builds a `title LIKE '%q%'` filter.
-/

namespace StudyHelper

/-- A Python `datetime`: a wall-clock reading plus an optional UTC offset.
`tzOffset = none` models a naive datetime. -/
structure PyDateTime where
  wall : Int
  tzOffset : Option Int
  deriving Repr, DecidableEq

/-- Function `ensure_utc` from `src/main.py`: a naive datetime is reinterpreted as
UTC (`dt.replace(tzinfo=timezone.utc)`, same wall clock), an aware one is
converted (`dt.astimezone(timezone.utc)`, wall clock shifted by the offset). -/
def ensure_utc (dt : PyDateTime) : PyDateTime :=
  match dt.tzOffset with
  | none => { dt with tzOffset := some 0 }
  | some o => { wall := dt.wall - o, tzOffset := some 0 }

/-- The UTC instant denoted by a datetime after normalization. -/
def PyDateTime.instant (dt : PyDateTime) : Int := (ensure_utc dt).wall

/-- Python's `str.strip()` on the character list: drop leading and
trailing whitespace. -/
def stripChars (cs : List Char) : List Char :=
  ((cs.dropWhile Char.isWhitespace).reverse.dropWhile Char.isWhitespace).reverse

/-- Python's `str.strip()` on strings. -/
def pyStrip (s : String) : String :=
  ⟨stripChars s.data⟩

/-- Enum `TaskState` from `src/main.py`. -/
inductive TaskState where
  | PENDING
  | APPROVED
  | EXPIRED
  deriving Repr, DecidableEq

/-- A row of the `tasks` table. -/
structure Task where
  id : String
  title : String
  verify_method : String
  due_at : Int
  state : TaskState
  updated_at : Int
  deriving Repr, DecidableEq

/-- A row of the `verification_attempts` table.  `score` is stored
verbatim and never computed with, so the float is modelled as a rational;
`raw_features` is stored as its serialized text (`json.dumps`). -/
structure Attempt where
  id : String
  task_id : String
  proof_url : String
  verdict : Bool
  score : Option Rat
  reasons : Option String
  raw_features : Option String
  deriving Repr, DecidableEq

/-- The persistent storage: the two tables. -/
structure Store where
  tasks : List Task
  attempts : List Attempt
  deriving Repr, DecidableEq

/-- Errors surfaced to the caller (pydantic validation failure /
HTTP 404 in `verify_task`). -/
inductive ApiError where
  | ValidationError
  | NotFoundError
  deriving Repr, DecidableEq

/-! ## SQLite `LIKE` -/

/-- SQLite's default `LIKE` folds ASCII upper-case letters only. -/
def foldAscii (c : Char) : Char :=
  if c.isUpper then c.toLower else c

/-- SQLite `LIKE` pattern matching (default, no `ESCAPE`): `%` matches any
sequence of characters, `_` matches exactly one character, any other
pattern character matches ASCII-case-insensitively. -/
def likeMatch : List Char → List Char → Bool
  | [], s => s.isEmpty
  | '%' :: ps, s =>
      likeMatch ps s ||
        (match s with
         | [] => false
         | _ :: s' => likeMatch ('%' :: ps) s')
  | '_' :: ps, s =>
      (match s with
       | [] => false
       | _ :: s' => likeMatch ps s')
  | p :: ps, s =>
      (match s with
       | [] => false
       | c :: s' => (foldAscii p == foldAscii c) && likeMatch ps s')
  termination_by ps s => ps.length + s.length
  decreasing_by all_goals simp_arith [*]

/-- The `title LIKE ?` filter of `fetch_tasks`, with parameter `f"%{q}%"`. -/
def titleLike (q : String) (title : String) : Bool :=
  likeMatch ('%' :: (q.data ++ ['%'])) title.data

/-- Case-sensitive literal prefix test on character lists. -/
def startsWithCS : List Char → List Char → Bool
  | [], _ => true
  | _ :: _, [] => false
  | p :: ps, c :: s => (p == c) && startsWithCS ps s

/-- Case-sensitive literal substring test on character lists. -/
def containsCS (q : List Char) : List Char → Bool
  | [] => startsWithCS q []
  | c :: s => startsWithCS q (c :: s) || containsCS q s

/-- The spec's words for the `title_contains` filter: the filter string
"occurs in its title as a case-sensitive literal substring".  Stated as a
second definition, to be compared with the `LIKE`-based one the code uses. -/
def specTitleContains (q title : String) : Bool :=
  containsCS q.data title.data

/-- ASCII-case-insensitive literal prefix test on character lists. -/
def startsWithFold : List Char → List Char → Bool
  | [], _ => true
  | _ :: _, [] => false
  | p :: ps, c :: s => (foldAscii p == foldAscii c) && startsWithFold ps s

/-- ASCII-case-insensitive literal substring test on character lists. -/
def containsFold (q : List Char) : List Char → Bool
  | [] => startsWithFold q []
  | c :: s => startsWithFold q (c :: s) || containsFold q s

/-- ASCII-case-insensitive literal substring test on strings. -/
def ciTitleContains (q title : String) : Bool :=
  containsFold q.data title.data

/-- A `LIKE` pattern fragment containing no wildcard characters. -/
def wildFree (ps : List Char) : Prop :=
  ('%' ∉ ps) ∧ ('_' ∉ ps)

/-! ## Store operations -/

/-- Effect of `expire_overdue_tasks` on a single row: the SQL `UPDATE`
touches a row iff `state = 'PENDING' AND due_at <= now`, setting
`state = 'EXPIRED'` and refreshing `updated_at`. -/
def expireTask (now : Int) (t : Task) : Task :=
  if t.state = TaskState.PENDING ∧ t.due_at ≤ now then
    { t with state := TaskState.EXPIRED, updated_at := now }
  else t

/-- Function `expire_overdue_tasks` from `src/main.py`: the lazy expiry sweep. -/
def expire_overdue_tasks (now : Int) (s : Store) : Store :=
  { s with tasks := s.tasks.map (expireTask now) }

/-- The filter criteria of `fetch_tasks` / `list_tasks` query parameters. -/
structure TaskFilter where
  state : Option TaskState
  q : Option String
  due_before : Option PyDateTime
  due_after : Option PyDateTime
  deriving Repr

/-- The conjunctive `WHERE` clause built by `fetch_tasks`.  Python
truthiness: `if q:` skips the title clause for the empty string as well
as for `None`; a `TaskState` enum member and a `datetime` are always
truthy, so those clauses fire exactly when the parameter is present. -/
def matchesFilter (f : TaskFilter) (t : Task) : Bool :=
  (match f.state with
   | none => true
   | some st => t.state = st) &&
  (match f.q with
   | none => true
   | some qs => if qs = "" then true else titleLike qs t.title) &&
  (match f.due_before with
   | none => true
   | some d => t.due_at < (ensure_utc d).wall) &&
  (match f.due_after with
   | none => true
   | some d => t.due_at > (ensure_utc d).wall)

/-- Sorted insertion by due time (ascending). -/
def insertByDue (t : Task) : List Task → List Task
  | [] => [t]
  | u :: us => if t.due_at ≤ u.due_at then t :: u :: us else u :: insertByDue t us

/-- Model of `ORDER BY due_at ASC`: insertion sort on the due time. -/
def sortByDue : List Task → List Task
  | [] => []
  | t :: ts => insertByDue t (sortByDue ts)

/-- Function `fetch_tasks` from `src/main.py`: conjunctive filtering followed by
`ORDER BY due_at ASC`. -/
def fetch_tasks (f : TaskFilter) (s : Store) : List Task :=
  sortByDue (s.tasks.filter (matchesFilter f))

/-- Function `list_tasks` from `src/main.py`: run the expiry sweep first,
unconditionally, then fetch with the filters.  Returns the post-sweep
store together with the listed rows. -/
def list_tasks (now : Int) (f : TaskFilter) (s : Store) : Store × List Task :=
  let s' := expire_overdue_tasks now s
  (s', fetch_tasks f s')

/-- Function `create_task` from `src/main.py`, including the pydantic
`CreateTaskRequest` validators (`title`/`verify_method` must be non-empty
after stripping whitespace; `due_at_iso` is normalized via `ensure_utc`).
`new_id` stands for the generated `uuid4`.  The returned pair is the
storage after the call and either the error or the created row. -/
def create_task (title verify_method : String) (due_at_iso : PyDateTime)
    (new_id : String) (now : Int) (s : Store) :
    Store × Except ApiError Task :=
  if pyStrip title = "" ∨ pyStrip verify_method = "" then
    (s, Except.error ApiError.ValidationError)
  else
    let row : Task :=
      { id := new_id
        title := pyStrip title
        verify_method := pyStrip verify_method
        due_at := (ensure_utc due_at_iso).wall
        state := TaskState.PENDING
        updated_at := now }
    ({ s with tasks := s.tasks ++ [row] }, Except.ok row)

/-- The body of `VerificationAttemptRequest` (pydantic already enforced
`proof_url` non-empty after trimming before the handler runs). -/
structure VerifyPayload where
  proof_url : String
  verdict : Bool
  score : Option Rat
  reasons : Option String
  raw_features : Option String
  deriving Repr

/-- Function `verify_task` from `src/main.py`: look the task up by id
(`fetchone` = first matching row); on a miss raise 404 with nothing
written; otherwise insert the attempt row and, iff `verdict` is true,
set every row with this id to `APPROVED` with `updated_at` refreshed.
Returns the storage after the call and either the error or the
resulting state. -/
def verify_task (task_id : String) (p : VerifyPayload) (attempt_id : String)
    (now : Int) (s : Store) : Store × Except ApiError TaskState :=
  match s.tasks.find? (fun t => t.id = task_id) with
  | none => (s, Except.error ApiError.NotFoundError)
  | some task =>
      let att : Attempt :=
        { id := attempt_id
          task_id := task_id
          proof_url := pyStrip p.proof_url
          verdict := p.verdict
          score := p.score
          reasons := p.reasons
          raw_features := p.raw_features }
      let withAtt := { s with attempts := s.attempts ++ [att] }
      if p.verdict then
        ({ withAtt with
            tasks := withAtt.tasks.map (fun t =>
              if t.id = task_id then
                { t with state := TaskState.APPROVED, updated_at := now }
              else t) },
         Except.ok TaskState.APPROVED)
      else
        (withAtt, Except.ok task.state)

/-! ## General lemmas -/

theorem mem_insertByDue {t x : Task} {l : List Task} :
    x ∈ insertByDue t l ↔ x = t ∨ x ∈ l := by
  induction l with
  | nil => simp [insertByDue]
  | cons u us ih =>
      by_cases h : t.due_at ≤ u.due_at
      · simp [insertByDue, h]
      · simp [insertByDue, h, ih]
        tauto

theorem mem_sortByDue {x : Task} {l : List Task} :
    x ∈ sortByDue l ↔ x ∈ l := by
  induction l with
  | nil => simp [sortByDue]
  | cons u us ih => simp [sortByDue, mem_insertByDue, ih]

theorem mem_fetch_tasks {f : TaskFilter} {s : Store} {t : Task} :
    t ∈ fetch_tasks f s ↔ t ∈ s.tasks ∧ matchesFilter f t = true := by
  unfold fetch_tasks
  rw [mem_sortByDue, List.mem_filter]

theorem expireTask_of_not_pending {now : Int} {t : Task}
    (h : t.state ≠ TaskState.PENDING) : expireTask now t = t := by
  unfold expireTask
  rw [if_neg]
  rintro ⟨hp, -⟩
  exact h hp

theorem expireTask_expireTask (now : Int) (t : Task) :
    expireTask now (expireTask now t) = expireTask now t := by
  by_cases h : t.state = TaskState.PENDING ∧ t.due_at ≤ now
  · simp [expireTask, h]
  · simp [expireTask, h]

theorem get_of_list_eq {α : Type} {l l' : List α} (h : l = l') {i : Nat}
    (h1 : i < l.length) (h2 : i < l'.length) :
    l.get ⟨i, h1⟩ = l'.get ⟨i, h2⟩ := by
  subst h
  rfl

/-! ### `LIKE` pattern lemmas -/

theorem likeMatch_nil (s : List Char) : likeMatch [] s = s.isEmpty := by
  rw [likeMatch.eq_def]

theorem likeMatch_percent_cons (ps : List Char) (c : Char) (s : List Char) :
    likeMatch ('%' :: ps) (c :: s)
      = (likeMatch ps (c :: s) || likeMatch ('%' :: ps) s) := by
  conv_lhs => rw [likeMatch.eq_def]
  rfl

theorem likeMatch_percent_nil (ps : List Char) :
    likeMatch ('%' :: ps) [] = likeMatch ps [] := by
  conv_lhs => rw [likeMatch.eq_def]
  simp

theorem likeMatch_underscore_cons (ps : List Char) (c : Char) (s : List Char) :
    likeMatch ('_' :: ps) (c :: s) = likeMatch ps s := by
  conv_lhs => rw [likeMatch.eq_def]
  rfl

theorem likeMatch_cons_ne {p : Char} (hp : p ≠ '%') (hu : p ≠ '_')
    (ps : List Char) (c : Char) (s : List Char) :
    likeMatch (p :: ps) (c :: s)
      = ((foldAscii p == foldAscii c) && likeMatch ps s) := by
  rw [likeMatch.eq_def]
  split
  · rename_i heq
    exact absurd heq (by simp)
  · rename_i ps' heq
    injection heq with h1 h2
    exact absurd h1 hp
  · rename_i ps' heq
    injection heq with h1 h2
    exact absurd h1 hu
  · rename_i p' ps' hn1 hn2 heq
    injection heq with h1 h2
    subst h1
    subst h2
    rfl

theorem likeMatch_cons_ne_nil {p : Char} (hp : p ≠ '%') (ps : List Char) :
    likeMatch (p :: ps) [] = false := by
  rw [likeMatch.eq_def]
  split
  · rename_i heq
    exact absurd heq (by simp)
  · rename_i ps' heq
    injection heq with h1 h2
    exact absurd h1 hp
  · rename_i ps' heq
    rfl
  · rename_i p' ps' hn1 hn2 heq
    rfl

theorem likeMatch_percent_any (s : List Char) : likeMatch ['%'] s = true := by
  induction s with
  | nil =>
      rw [likeMatch_percent_nil, likeMatch_nil]
      rfl
  | cons c s ih =>
      rw [likeMatch_percent_cons, ih]
      simp

theorem likeMatch_percent_iff (ps : List Char) (s : List Char) :
    likeMatch ('%' :: ps) s = true
      ↔ ∃ s₁ s₂, s = s₁ ++ s₂ ∧ likeMatch ps s₂ = true := by
  induction s with
  | nil =>
      rw [likeMatch_percent_nil]
      constructor
      · intro h
        exact ⟨[], [], rfl, h⟩
      · rintro ⟨s₁, s₂, heq, h⟩
        obtain ⟨rfl, rfl⟩ := List.append_eq_nil.mp heq.symm
        exact h
  | cons c s ih =>
      rw [likeMatch_percent_cons, Bool.or_eq_true]
      constructor
      · rintro (h | h)
        · exact ⟨[], c :: s, rfl, h⟩
        · obtain ⟨s₁, s₂, heq, h2⟩ := ih.mp h
          exact ⟨c :: s₁, s₂, by rw [List.cons_append, ← heq], h2⟩
      · rintro ⟨s₁, s₂, heq, h⟩
        cases s₁ with
        | nil =>
            left
            rw [show c :: s = s₂ from by simpa using heq]
            exact h
        | cons d s₁' =>
            right
            injection heq with h1 h2
            exact ih.mpr ⟨s₁', s₂, h2, h⟩

theorem likeMatch_wildFree_eq (q : List Char) (hq : wildFree q) :
    ∀ s, likeMatch (q ++ ['%']) s = startsWithFold q s := by
  induction q with
  | nil =>
      intro s
      rw [List.nil_append, likeMatch_percent_any]
      rfl
  | cons p q ih =>
      have hp : p ≠ '%' := fun h => hq.1 (by simp [h])
      have hu : p ≠ '_' := fun h => hq.2 (by simp [h])
      have hq' : wildFree q :=
        ⟨fun h => hq.1 (List.mem_cons_of_mem _ h),
         fun h => hq.2 (List.mem_cons_of_mem _ h)⟩
      intro s
      cases s with
      | nil =>
          rw [List.cons_append, likeMatch_cons_ne_nil hp]
          rfl
      | cons c s' =>
          rw [List.cons_append, likeMatch_cons_ne hp hu, ih hq']
          rfl

theorem containsFold_iff (q : List Char) (s : List Char) :
    containsFold q s = true
      ↔ ∃ s₁ s₂, s = s₁ ++ s₂ ∧ startsWithFold q s₂ = true := by
  induction s with
  | nil =>
      constructor
      · intro h
        exact ⟨[], [], rfl, h⟩
      · rintro ⟨s₁, s₂, heq, h⟩
        obtain ⟨rfl, rfl⟩ := List.append_eq_nil.mp heq.symm
        exact h
  | cons c s ih =>
      rw [show containsFold q (c :: s)
          = (startsWithFold q (c :: s) || containsFold q s) from rfl,
        Bool.or_eq_true]
      constructor
      · rintro (h | h)
        · exact ⟨[], c :: s, rfl, h⟩
        · obtain ⟨s₁, s₂, heq, h2⟩ := ih.mp h
          exact ⟨c :: s₁, s₂, by rw [List.cons_append, ← heq], h2⟩
      · rintro ⟨s₁, s₂, heq, h⟩
        cases s₁ with
        | nil =>
            left
            rw [show c :: s = s₂ from by simpa using heq]
            exact h
        | cons d s₁' =>
            right
            injection heq with h1 h2
            exact ih.mpr ⟨s₁', s₂, h2, h⟩

theorem titleLike_wildFree_iff (q title : String) (hq : wildFree q.data) :
    titleLike q title = true ↔ ciTitleContains q title = true := by
  unfold titleLike ciTitleContains
  rw [likeMatch_percent_iff, containsFold_iff]
  constructor
  · rintro ⟨s₁, s₂, heq, h⟩
    rw [likeMatch_wildFree_eq q.data hq] at h
    exact ⟨s₁, s₂, heq, h⟩
  · rintro ⟨s₁, s₂, heq, h⟩
    refine ⟨s₁, s₂, heq, ?_⟩
    rw [likeMatch_wildFree_eq q.data hq]
    exact h

theorem matchesFilter_eq_true_iff (f : TaskFilter) (t : Task) :
    matchesFilter f t = true ↔
      (∀ v, f.state = some v → t.state = v)
      ∧ (∀ qs, f.q = some qs → qs ≠ "" → titleLike qs t.title = true)
      ∧ (∀ d, f.due_before = some d → t.due_at < (ensure_utc d).wall)
      ∧ (∀ d, f.due_after = some d → (ensure_utc d).wall < t.due_at) := by
  obtain ⟨st, q, db, da⟩ := f
  simp only [matchesFilter, Bool.and_eq_true, and_assoc]
  refine and_congr ?_ (and_congr ?_ (and_congr ?_ ?_))
  · cases st <;> simp
  · cases q with
    | none => simp
    | some qs =>
        by_cases h : qs = "" <;> simp [h]
  · cases db <;> simp
  · cases da <;> simp

/-! ## Claims -/

/-- C5: the expiry sweep is idempotent: a task already `EXPIRED` is left
with its state and `updated_at` unchanged by any later sweep, and applying
the sweep twice at the same instant equals applying it once. -/
theorem expiry_sweep_idempotent (now : Int) (s : Store) :
    (∀ (t : Task) (now' : Int), t.state = TaskState.EXPIRED → expireTask now' t = t)
    ∧ expire_overdue_tasks now (expire_overdue_tasks now s) = expire_overdue_tasks now s := by
  constructor
  · intro t now' h
    exact expireTask_of_not_pending (by rw [h]; intro hc; cases hc)
  · unfold expire_overdue_tasks
    simp [List.map_map, Function.comp, expireTask_expireTask]

/-- C5 witness: an already-expired task is untouched by a sweep at a
concrete later instant. -/
theorem expiry_sweep_idempotent_witness :
    expireTask 5 ⟨"t1", "a", "m", 0, TaskState.EXPIRED, 1⟩
      = ⟨"t1", "a", "m", 0, TaskState.EXPIRED, 1⟩ :=
  (expiry_sweep_idempotent 0 ⟨[], []⟩).1 ⟨"t1", "a", "m", 0, TaskState.EXPIRED, 1⟩ 5 rfl

/-- C8: a verification attempt against a task id that matches no stored
task fails with `NotFoundError` and leaves the storage entirely
unchanged (in particular, no attempt row is written). -/
theorem verify_unknown_id_not_found (task_id : String) (p : VerifyPayload)
    (attempt_id : String) (now : Int) (s : Store)
    (h : ∀ t ∈ s.tasks, t.id ≠ task_id) :
    verify_task task_id p attempt_id now s = (s, Except.error ApiError.NotFoundError) := by
  unfold verify_task
  have hnone : s.tasks.find? (fun t => t.id = task_id) = none := by
    rw [List.find?_eq_none]
    intro t ht
    simpa using h t ht
  rw [hnone]

/-- C8 witness: verifying an unknown id on a concrete one-task store
returns `NotFoundError` with the store unchanged. -/
theorem verify_unknown_id_not_found_witness :
    verify_task "missing" ⟨"u", true, none, none, none⟩ "a1" 7
        ⟨[⟨"t1", "a", "m", 0, TaskState.PENDING, 0⟩], []⟩
      = (⟨[⟨"t1", "a", "m", 0, TaskState.PENDING, 0⟩], []⟩,
         Except.error ApiError.NotFoundError) :=
  verify_unknown_id_not_found "missing" ⟨"u", true, none, none, none⟩ "a1" 7
    ⟨[⟨"t1", "a", "m", 0, TaskState.PENDING, 0⟩], []⟩ (by decide)

/-- C2: a verification attempt with `verdict = true` on an existing task
(no matter its prior state) returns `APPROVED`, and afterwards every
stored row with that id has state `APPROVED` and a refreshed
`updated_at`. -/
theorem verify_true_approves (task_id : String) (p : VerifyPayload)
    (attempt_id : String) (now : Int) (s : Store) (task : Task)
    (hfind : s.tasks.find? (fun t => t.id = task_id) = some task)
    (hv : p.verdict = true) :
    (verify_task task_id p attempt_id now s).2 = Except.ok TaskState.APPROVED
    ∧ ∀ t ∈ (verify_task task_id p attempt_id now s).1.tasks,
        t.id = task_id → t.state = TaskState.APPROVED ∧ t.updated_at = now := by
  have hres : verify_task task_id p attempt_id now s
      = ({ tasks := s.tasks.map (fun t =>
             if t.id = task_id then
               { t with state := TaskState.APPROVED, updated_at := now }
             else t),
           attempts := s.attempts ++ [⟨attempt_id, task_id, pyStrip p.proof_url,
             p.verdict, p.score, p.reasons, p.raw_features⟩] },
         Except.ok TaskState.APPROVED) := by
    unfold verify_task
    rw [hfind]
    simp [hv]
  rw [hres]
  refine ⟨rfl, ?_⟩
  intro t ht hid
  rcases List.mem_map.mp ht with ⟨u, hu, rfl⟩
  by_cases h : u.id = task_id
  · simp [h]
  · rw [if_neg h] at hid ⊢
    exact absurd hid h

/-- C2 witness: approving a concrete `EXPIRED` task flips it to
`APPROVED` and returns `APPROVED`. -/
theorem verify_true_approves_witness :
    (verify_task "t1" ⟨"u", true, none, none, none⟩ "a1" 9
        ⟨[⟨"t1", "a", "m", 0, TaskState.EXPIRED, 0⟩], []⟩).2
      = Except.ok TaskState.APPROVED
    ∧ ∀ t ∈ (verify_task "t1" ⟨"u", true, none, none, none⟩ "a1" 9
        ⟨[⟨"t1", "a", "m", 0, TaskState.EXPIRED, 0⟩], []⟩).1.tasks,
        t.id = "t1" → t.state = TaskState.APPROVED ∧ t.updated_at = 9 :=
  verify_true_approves "t1" ⟨"u", true, none, none, none⟩ "a1" 9
    ⟨[⟨"t1", "a", "m", 0, TaskState.EXPIRED, 0⟩], []⟩
    ⟨"t1", "a", "m", 0, TaskState.EXPIRED, 0⟩ (by decide) rfl

/-- C4: a verification attempt with `verdict = false` on an existing task
leaves every task row unchanged, appends exactly the one attempt row, and
returns the task's prior state. -/
theorem verify_false_frame (task_id : String) (p : VerifyPayload)
    (attempt_id : String) (now : Int) (s : Store) (task : Task)
    (hfind : s.tasks.find? (fun t => t.id = task_id) = some task)
    (hv : p.verdict = false) :
    (verify_task task_id p attempt_id now s).1.tasks = s.tasks
    ∧ (verify_task task_id p attempt_id now s).1.attempts
        = s.attempts
          ++ [⟨attempt_id, task_id, pyStrip p.proof_url, p.verdict, p.score,
               p.reasons, p.raw_features⟩]
    ∧ (verify_task task_id p attempt_id now s).2 = Except.ok task.state := by
  unfold verify_task
  rw [hfind]
  simp [hv]

/-- C4 witness: a failing attempt on a concrete overdue `PENDING` task
leaves it `PENDING` and echoes `PENDING`. -/
theorem verify_false_frame_witness :
    (verify_task "t1" ⟨"u", false, none, none, none⟩ "a1" 9
        ⟨[⟨"t1", "a", "m", 0, TaskState.PENDING, 0⟩], []⟩).1.tasks
      = [⟨"t1", "a", "m", 0, TaskState.PENDING, 0⟩]
    ∧ (verify_task "t1" ⟨"u", false, none, none, none⟩ "a1" 9
        ⟨[⟨"t1", "a", "m", 0, TaskState.PENDING, 0⟩], []⟩).1.attempts
      = [⟨"a1", "t1", "u", false, none, none, none⟩]
    ∧ (verify_task "t1" ⟨"u", false, none, none, none⟩ "a1" 9
        ⟨[⟨"t1", "a", "m", 0, TaskState.PENDING, 0⟩], []⟩).2
      = Except.ok TaskState.PENDING := by
  have h := verify_false_frame "t1" ⟨"u", false, none, none, none⟩ "a1" 9
    ⟨[⟨"t1", "a", "m", 0, TaskState.PENDING, 0⟩], []⟩
    ⟨"t1", "a", "m", 0, TaskState.PENDING, 0⟩ (by decide) rfl
  refine ⟨h.1, ?_, h.2.2⟩
  rw [h.2.1]
  rfl

/-- C9: `create_task` fails with `ValidationError` exactly when the title
or the verify method is empty after trimming; on failure the storage is
unchanged, and on success exactly one new `PENDING` row with the fresh id
is appended (the fresh id occurring exactly once when it was absent
before). -/
theorem create_task_validation (title vm : String) (due : PyDateTime)
    (new_id : String) (now : Int) (s : Store) :
    ((create_task title vm due new_id now s).2 = Except.error ApiError.ValidationError
        ↔ (pyStrip title = "" ∨ pyStrip vm = ""))
    ∧ ((pyStrip title = "" ∨ pyStrip vm = "") → (create_task title vm due new_id now s).1 = s)
    ∧ (¬(pyStrip title = "" ∨ pyStrip vm = "") →
        ∃ row : Task,
          (create_task title vm due new_id now s).1.tasks = s.tasks ++ [row]
          ∧ (create_task title vm due new_id now s).2 = Except.ok row
          ∧ row.state = TaskState.PENDING
          ∧ row.id = new_id
          ∧ (new_id ∉ s.tasks.map Task.id →
              ((create_task title vm due new_id now s).1.tasks.filter
                  (fun t => t.id = new_id)).length = 1)) := by
  by_cases h : pyStrip title = "" ∨ pyStrip vm = ""
  · refine ⟨?_, fun _ => ?_, fun hc => absurd h hc⟩
    · simp [create_task, h]
    · simp [create_task, h]
  · refine ⟨?_, fun hc => absurd hc h, fun _ => ?_⟩
    · simp [create_task, h]
    · refine ⟨⟨new_id, pyStrip title, pyStrip vm, (ensure_utc due).wall,
        TaskState.PENDING, now⟩, ?_, ?_, rfl, rfl, ?_⟩
      · simp [create_task, h]
      · simp [create_task, h]
      · intro hfresh
        have hold : s.tasks.filter (fun t => t.id = new_id) = [] := by
          rw [List.filter_eq_nil_iff]
          intro t ht hc
          exact hfresh (List.mem_map.mpr ⟨t, ht, by simpa using hc⟩)
        simp [create_task, h, List.filter_append, hold]

/-- C9 witness: creating a task with an empty title on a concrete store
is a validation error, while valid inputs append one `PENDING` row. -/
theorem create_task_validation_witness :
    ((create_task "  " "m" ⟨3, none⟩ "id1" 0 ⟨[], []⟩).2
        = Except.error ApiError.ValidationError
      ↔ (pyStrip "  " = "" ∨ pyStrip "m" = ""))
    ∧ ((¬(pyStrip "a" = "" ∨ pyStrip "m" = "")) →
        ∃ row : Task,
          (create_task "a" "m" ⟨3, none⟩ "id1" 0 ⟨[], []⟩).1.tasks = [] ++ [row]
          ∧ (create_task "a" "m" ⟨3, none⟩ "id1" 0 ⟨[], []⟩).2 = Except.ok row
          ∧ row.state = TaskState.PENDING
          ∧ row.id = "id1"
          ∧ ("id1" ∉ ([] : List Task).map Task.id →
              ((create_task "a" "m" ⟨3, none⟩ "id1" 0 ⟨[], []⟩).1.tasks.filter
                  (fun t => t.id = "id1")).length = 1)) := by
  constructor
  · exact (create_task_validation "  " "m" ⟨3, none⟩ "id1" 0 ⟨[], []⟩).1
  · exact fun hv =>
      (create_task_validation "a" "m" ⟨3, none⟩ "id1" 0 ⟨[], []⟩).2.2 hv

/-- C7: a task passes the due-time criteria iff its `due_at` is strictly
below `due_before` and strictly above `due_after`, both bounds normalized
to UTC by `ensure_utc`; all supplied criteria are combined
conjunctively. -/
theorem due_filters_strict_conjunctive (st : Option TaskState)
    (q : Option String) (db da : Option PyDateTime) (s : Store) (t : Task) :
    t ∈ fetch_tasks ⟨st, q, db, da⟩ s ↔
      t ∈ s.tasks
      ∧ (∀ v, st = some v → t.state = v)
      ∧ (∀ qs, q = some qs → qs ≠ "" → titleLike qs t.title = true)
      ∧ (∀ d, db = some d → t.due_at < (ensure_utc d).wall)
      ∧ (∀ d, da = some d → (ensure_utc d).wall < t.due_at) := by
  rw [mem_fetch_tasks, and_congr_right_iff]
  intro _
  exact matchesFilter_eq_true_iff ⟨st, q, db, da⟩ t

/-- C7 witness: a concrete task with due time 5 is listed under the
bounds `due_before = 10` (naive, read as UTC) and `due_after` at UTC
instant 0 (wall clock 1 at offset +1). -/
theorem due_filters_strict_conjunctive_witness :
    ⟨"t1", "a", "m", 5, TaskState.PENDING, 0⟩
      ∈ (⟨[⟨"t1", "a", "m", 5, TaskState.PENDING, 0⟩], []⟩ : Store).tasks
    ∧ (∀ v, (none : Option TaskState) = some v
        → Task.state ⟨"t1", "a", "m", 5, TaskState.PENDING, 0⟩ = v)
    ∧ (∀ qs, (none : Option String) = some qs → qs ≠ ""
        → titleLike qs (Task.title ⟨"t1", "a", "m", 5, TaskState.PENDING, 0⟩) = true)
    ∧ (∀ d, (some ⟨10, none⟩ : Option PyDateTime) = some d
        → Task.due_at ⟨"t1", "a", "m", 5, TaskState.PENDING, 0⟩ < (ensure_utc d).wall)
    ∧ (∀ d, (some ⟨1, some 1⟩ : Option PyDateTime) = some d
        → (ensure_utc d).wall < Task.due_at ⟨"t1", "a", "m", 5, TaskState.PENDING, 0⟩) :=
  (due_filters_strict_conjunctive none none (some ⟨10, none⟩) (some ⟨1, some 1⟩)
      ⟨[⟨"t1", "a", "m", 5, TaskState.PENDING, 0⟩], []⟩
      ⟨"t1", "a", "m", 5, TaskState.PENDING, 0⟩).mp (by decide)

/-- C1: `list_tasks` first runs the expiry sweep over the whole table —
every `PENDING` task with `due_at ≤ now` becomes `EXPIRED` with
`updated_at` refreshed, all other rows untouched — and only then fetches,
so the returned rows (and the state filter) are evaluated against the
post-sweep states. -/
theorem sweep_runs_before_listing (now : Int) (f : TaskFilter) (s : Store) :
    (list_tasks now f s).1.tasks.length = s.tasks.length
    ∧ (∀ (i : Nat) (h1 : i < s.tasks.length)
          (h2 : i < (list_tasks now f s).1.tasks.length),
        ((s.tasks.get ⟨i, h1⟩).state = TaskState.PENDING →
            (s.tasks.get ⟨i, h1⟩).due_at ≤ now →
          ((list_tasks now f s).1.tasks.get ⟨i, h2⟩).state = TaskState.EXPIRED
          ∧ ((list_tasks now f s).1.tasks.get ⟨i, h2⟩).updated_at = now
          ∧ ((list_tasks now f s).1.tasks.get ⟨i, h2⟩).id = (s.tasks.get ⟨i, h1⟩).id
          ∧ ((list_tasks now f s).1.tasks.get ⟨i, h2⟩).due_at
              = (s.tasks.get ⟨i, h1⟩).due_at)
        ∧ (¬((s.tasks.get ⟨i, h1⟩).state = TaskState.PENDING
              ∧ (s.tasks.get ⟨i, h1⟩).due_at ≤ now) →
            (list_tasks now f s).1.tasks.get ⟨i, h2⟩ = s.tasks.get ⟨i, h1⟩))
    ∧ (list_tasks now f s).2 = fetch_tasks f ((list_tasks now f s).1)
    ∧ (∀ r ∈ (list_tasks now f s).2,
        r ∈ (list_tasks now f s).1.tasks ∧ ∀ v, f.state = some v → r.state = v) := by
  have hstore : (list_tasks now f s).1 = expire_overdue_tasks now s := rfl
  refine ⟨by simp [hstore, expire_overdue_tasks], ?_, rfl, ?_⟩
  · intro i h1 h2
    have hget : (list_tasks now f s).1.tasks.get ⟨i, h2⟩
        = expireTask now (s.tasks.get ⟨i, h1⟩) := by
      simp [hstore, expire_overdue_tasks]
    rw [hget]
    constructor
    · intro hp hd
      rw [expireTask, if_pos ⟨hp, hd⟩]
      exact ⟨rfl, rfl, rfl, rfl⟩
    · intro hn
      rw [expireTask, if_neg hn]
  · intro r hr
    have hr' := hr
    rw [show (list_tasks now f s).2 = fetch_tasks f ((list_tasks now f s).1) from rfl,
      mem_fetch_tasks] at hr'
    exact ⟨hr'.1, ((matchesFilter_eq_true_iff f r).mp hr'.2).1⟩

/-- C1 witness: on a concrete store holding one overdue `PENDING` task
and one future `PENDING` task, listing at instant 5 with a state filter
behaves as the sweep-then-filter description states. -/
theorem sweep_runs_before_listing_witness :
    ((list_tasks 5 ⟨some TaskState.EXPIRED, none, none, none⟩
        ⟨[⟨"t1", "a", "m", 0, TaskState.PENDING, 0⟩,
          ⟨"t2", "b", "m", 9, TaskState.PENDING, 0⟩], []⟩).1.tasks.get
        ⟨0, by decide⟩).state = TaskState.EXPIRED
    ∧ ((list_tasks 5 ⟨some TaskState.EXPIRED, none, none, none⟩
        ⟨[⟨"t1", "a", "m", 0, TaskState.PENDING, 0⟩,
          ⟨"t2", "b", "m", 9, TaskState.PENDING, 0⟩], []⟩).1.tasks.get
        ⟨0, by decide⟩).updated_at = 5 := by
  have h := (sweep_runs_before_listing 5 ⟨some TaskState.EXPIRED, none, none, none⟩
    ⟨[⟨"t1", "a", "m", 0, TaskState.PENDING, 0⟩,
      ⟨"t2", "b", "m", 9, TaskState.PENDING, 0⟩], []⟩).2.1 0 (by decide) (by decide)
  have h' := h.1 (by decide) (by decide)
  exact ⟨h'.1, h'.2.1⟩

/-- C3: state-machine invariant across the three operations.  Under the
listing sweep: an `APPROVED` task stays `APPROVED`, a task is `EXPIRED`
afterwards only if it already was or was `PENDING` with `due_at ≤ now`,
and no task becomes `PENDING`.  Under verification: `APPROVED` is
preserved, `EXPIRED` is never newly reached, and no task becomes
`PENDING`.  Under creation: every pre-existing row is unchanged. -/
theorem lifecycle_state_machine :
    (∀ (now : Int) (f : TaskFilter) (s : Store) (i : Nat)
        (h1 : i < s.tasks.length) (h2 : i < (list_tasks now f s).1.tasks.length),
      ((s.tasks.get ⟨i, h1⟩).state = TaskState.APPROVED →
          ((list_tasks now f s).1.tasks.get ⟨i, h2⟩).state = TaskState.APPROVED)
      ∧ (((list_tasks now f s).1.tasks.get ⟨i, h2⟩).state = TaskState.EXPIRED →
          (s.tasks.get ⟨i, h1⟩).state = TaskState.EXPIRED
          ∨ ((s.tasks.get ⟨i, h1⟩).state = TaskState.PENDING
              ∧ (s.tasks.get ⟨i, h1⟩).due_at ≤ now))
      ∧ (((list_tasks now f s).1.tasks.get ⟨i, h2⟩).state = TaskState.PENDING →
          (s.tasks.get ⟨i, h1⟩).state = TaskState.PENDING))
    ∧ (∀ (task_id : String) (p : VerifyPayload) (attempt_id : String) (now : Int)
        (s : Store) (i : Nat) (h1 : i < s.tasks.length)
        (h2 : i < (verify_task task_id p attempt_id now s).1.tasks.length),
      ((s.tasks.get ⟨i, h1⟩).state = TaskState.APPROVED →
          ((verify_task task_id p attempt_id now s).1.tasks.get ⟨i, h2⟩).state
            = TaskState.APPROVED)
      ∧ (((verify_task task_id p attempt_id now s).1.tasks.get ⟨i, h2⟩).state
            = TaskState.EXPIRED →
          (s.tasks.get ⟨i, h1⟩).state = TaskState.EXPIRED)
      ∧ (((verify_task task_id p attempt_id now s).1.tasks.get ⟨i, h2⟩).state
            = TaskState.PENDING →
          (s.tasks.get ⟨i, h1⟩).state = TaskState.PENDING))
    ∧ (∀ (title vm : String) (due : PyDateTime) (new_id : String) (now : Int)
        (s : Store) (i : Nat) (h1 : i < s.tasks.length)
        (h2 : i < (create_task title vm due new_id now s).1.tasks.length),
      (create_task title vm due new_id now s).1.tasks.get ⟨i, h2⟩
        = s.tasks.get ⟨i, h1⟩) := by
  refine ⟨?_, ?_, ?_⟩
  · intro now f s i h1 h2
    have hget : (list_tasks now f s).1.tasks.get ⟨i, h2⟩
        = expireTask now (s.tasks.get ⟨i, h1⟩) := by
      simp [list_tasks, expire_overdue_tasks]
    rw [hget]
    by_cases h : (s.tasks.get ⟨i, h1⟩).state = TaskState.PENDING
        ∧ (s.tasks.get ⟨i, h1⟩).due_at ≤ now
    · rw [expireTask, if_pos h]
      refine ⟨fun ha => ?_, fun _ => Or.inr h, fun hp => ?_⟩
      · exact absurd (h.1.symm.trans ha) (by decide)
      · exact absurd hp (by simp)
    · rw [expireTask, if_neg h]
      exact ⟨fun ha => ha, fun he => Or.inl he, fun hp => hp⟩
  · intro task_id p attempt_id now s i h1 h2
    cases hfind : s.tasks.find? (fun t => t.id = task_id) with
    | none =>
        have hst : (verify_task task_id p attempt_id now s).1.tasks = s.tasks := by
          unfold verify_task
          rw [hfind]
        rw [get_of_list_eq hst h2 h1]
        exact ⟨fun ha => ha, fun he => he, fun hp => hp⟩
    | some task =>
        cases hv : p.verdict with
        | false =>
            have hst : (verify_task task_id p attempt_id now s).1.tasks = s.tasks := by
              unfold verify_task
              rw [hfind]
              simp [hv]
            rw [get_of_list_eq hst h2 h1]
            exact ⟨fun ha => ha, fun he => he, fun hp => hp⟩
        | true =>
            have hst : (verify_task task_id p attempt_id now s).1.tasks
                = s.tasks.map (fun t =>
                    if t.id = task_id then
                      { t with state := TaskState.APPROVED, updated_at := now }
                    else t) := by
              unfold verify_task
              rw [hfind]
              simp [hv]
            have hlen : i < (s.tasks.map (fun t =>
                if t.id = task_id then
                  { t with state := TaskState.APPROVED, updated_at := now }
                else t)).length := by
              simpa using h1
            rw [get_of_list_eq hst h2 hlen]
            have hg : (s.tasks.map (fun t =>
                if t.id = task_id then
                  { t with state := TaskState.APPROVED, updated_at := now }
                else t)).get ⟨i, hlen⟩
                = (fun t =>
                    if t.id = task_id then
                      { t with state := TaskState.APPROVED, updated_at := now }
                    else t) (s.tasks.get ⟨i, h1⟩) := by
              simp
            rw [hg]
            by_cases hid : (s.tasks.get ⟨i, h1⟩).id = task_id
            · simp only
              rw [if_pos hid]
              refine ⟨fun _ => rfl, fun he => ?_, fun hp => ?_⟩
              · exact absurd he (by simp)
              · exact absurd hp (by simp)
            · simp only
              rw [if_neg hid]
              exact ⟨fun ha => ha, fun he => he, fun hp => hp⟩
  · intro title vm due new_id now s i h1 h2
    by_cases h : pyStrip title = "" ∨ pyStrip vm = ""
    · have hst : (create_task title vm due new_id now s).1.tasks = s.tasks := by
        simp [create_task, h]
      rw [get_of_list_eq hst h2 h1]
    · have hst : (create_task title vm due new_id now s).1.tasks
          = s.tasks ++ [⟨new_id, pyStrip title, pyStrip vm, (ensure_utc due).wall,
              TaskState.PENDING, now⟩] := by
        simp [create_task, h]
      have hlen : i < (s.tasks ++ [(⟨new_id, pyStrip title, pyStrip vm,
          (ensure_utc due).wall, TaskState.PENDING, now⟩ : Task)]).length := by
        simp
        omega
      rw [get_of_list_eq hst h2 hlen]
      simp [List.get_eq_getElem, List.getElem_append_left h1]

/-- C3 witness: on a concrete store, the task observed `EXPIRED` after a
listing at instant 5 was previously `EXPIRED` or was overdue-`PENDING`. -/
theorem lifecycle_state_machine_witness :
    ((⟨[⟨"t1", "a", "m", 0, TaskState.PENDING, 0⟩], []⟩ : Store).tasks.get
        ⟨0, by decide⟩).state = TaskState.EXPIRED
    ∨ (((⟨[⟨"t1", "a", "m", 0, TaskState.PENDING, 0⟩], []⟩ : Store).tasks.get
          ⟨0, by decide⟩).state = TaskState.PENDING
        ∧ ((⟨[⟨"t1", "a", "m", 0, TaskState.PENDING, 0⟩], []⟩ : Store).tasks.get
          ⟨0, by decide⟩).due_at ≤ 5) :=
  ((lifecycle_state_machine.1 5 ⟨none, none, none, none⟩
    ⟨[⟨"t1", "a", "m", 0, TaskState.PENDING, 0⟩], []⟩ 0 (by decide)
      (by decide)).2.1) (by decide)

/-- C6 counterexample: the claim's "case-sensitive literal substring"
reading is false on the code: with filter string "A", the task titled
"a" is returned by `fetch_tasks` (SQLite `LIKE` is ASCII-case-insensitive),
yet "A" does not occur in "a" as a case-sensitive literal substring. -/
theorem title_filter_case_counterexample :
    (⟨"t1", "a", "m", 0, TaskState.PENDING, 0⟩ : Task)
      ∈ fetch_tasks ⟨none, some "A", none, none⟩
          ⟨[⟨"t1", "a", "m", 0, TaskState.PENDING, 0⟩], []⟩
    ∧ specTitleContains "A" "a" = false := by
  refine ⟨?_, by decide⟩
  rw [mem_fetch_tasks]
  refine ⟨by decide, ?_⟩
  simp [matchesFilter, titleLike, likeMatch, foldAscii]

/-- C6 amended: with a non-empty `title_contains` filter a task is
returned iff (besides the other criteria) the SQLite pattern `%q%`
LIKE-matches its title; for filter strings free of the wildcard
characters `%` and `_` that match is an ASCII-case-insensitive — not
case-sensitive — literal substring test; an empty filter imposes no
constraint. -/
theorem title_filter_like_semantics (st : Option TaskState)
    (db da : Option PyDateTime) (s : Store) (t : Task) :
    (∀ q : String, q ≠ "" →
        (t ∈ fetch_tasks ⟨st, some q, db, da⟩ s ↔
          t ∈ fetch_tasks ⟨st, none, db, da⟩ s ∧ titleLike q t.title = true))
    ∧ (∀ q : String, wildFree q.data →
        (titleLike q t.title = true ↔ ciTitleContains q t.title = true))
    ∧ (t ∈ fetch_tasks ⟨st, some "", db, da⟩ s
        ↔ t ∈ fetch_tasks ⟨st, none, db, da⟩ s) := by
  refine ⟨?_, fun q hw => titleLike_wildFree_iff q t.title hw, ?_⟩
  · intro q hq
    rw [mem_fetch_tasks, mem_fetch_tasks, matchesFilter_eq_true_iff,
      matchesFilter_eq_true_iff]
    constructor
    · rintro ⟨hm, hA, hB, hC, hD⟩
      refine ⟨⟨hm, hA, ?_, hC, hD⟩, hB q rfl hq⟩
      intro qs h
      simp at h
    · rintro ⟨⟨hm, hA, -, hC, hD⟩, hT⟩
      refine ⟨hm, hA, ?_, hC, hD⟩
      intro qs h _
      injection h with h'
      subst h'
      exact hT
  · rw [mem_fetch_tasks, mem_fetch_tasks, matchesFilter_eq_true_iff,
      matchesFilter_eq_true_iff]
    constructor
    · rintro ⟨hm, hA, -, hC, hD⟩
      refine ⟨hm, hA, ?_, hC, hD⟩
      intro qs h
      simp at h
    · rintro ⟨hm, hA, -, hC, hD⟩
      refine ⟨hm, hA, ?_, hC, hD⟩
      intro qs h hne
      injection h with h'
      exact absurd h'.symm hne

/-- C6 amended witness: the filter "A" (non-empty, wildcard-free)
returns the concrete task titled "xay" because "A" occurs
case-insensitively in "xay". -/
theorem title_filter_like_semantics_witness :
    (⟨"t1", "xay", "m", 0, TaskState.PENDING, 0⟩ : Task)
      ∈ fetch_tasks ⟨none, some "A", none, none⟩
          ⟨[⟨"t1", "xay", "m", 0, TaskState.PENDING, 0⟩], []⟩ := by
  have h := title_filter_like_semantics none none none
    ⟨[⟨"t1", "xay", "m", 0, TaskState.PENDING, 0⟩], []⟩
    ⟨"t1", "xay", "m", 0, TaskState.PENDING, 0⟩
  refine (h.1 "A" (by decide)).mpr ⟨?_, ?_⟩
  · rw [mem_fetch_tasks]
    exact ⟨by decide, by decide⟩
  · exact (h.2.1 "A" ⟨by decide, by decide⟩).mpr (by decide)

/-- C10: in the `title_contains` filter, `%` and `_` are wildcards
rather than literal characters: `%` absorbs an arbitrary prefix of the
remaining text, `_` consumes exactly one arbitrary character, and the
filters "a%c" and "a_c" match the concrete titles "abbbc" and "axc" in
which they do not occur literally. -/
theorem title_filter_wildcards :
    (∀ (ps s₁ s₂ : List Char), likeMatch ps s₂ = true →
        likeMatch ('%' :: ps) (s₁ ++ s₂) = true)
    ∧ (∀ (ps : List Char) (c : Char) (s : List Char),
        likeMatch ('_' :: ps) (c :: s) = likeMatch ps s)
    ∧ titleLike "a%c" "abbbc" = true
    ∧ specTitleContains "a%c" "abbbc" = false
    ∧ titleLike "a_c" "axc" = true
    ∧ specTitleContains "a_c" "axc" = false := by
  refine ⟨?_, fun ps c s => likeMatch_underscore_cons ps c s, ?_, by decide,
    ?_, by decide⟩
  · intro ps s₁ s₂ h
    exact (likeMatch_percent_iff ps (s₁ ++ s₂)).mpr ⟨s₁, s₂, rfl, h⟩
  · simp [titleLike, likeMatch, foldAscii]
  · simp [titleLike, likeMatch, foldAscii]

/-- C10 witness: `%` absorbs the concrete prefix "x" in front of "b". -/
theorem title_filter_wildcards_witness :
    likeMatch ['%', 'b'] (['x'] ++ ['b']) = true :=
  title_filter_wildcards.1 ['b'] ['x'] ['b'] (by simp [likeMatch, foldAscii])

end StudyHelper
